import Mathlib

/-!
Shallow embedding of the SkillSwap backend swap-request engine and the parts
of the skill catalog it depends on.

Sources embedded:
  * src/models/skill.js, src/unnamed/part_002 (swapRequest / user schemas):
    the record types below.
  * src/controllers/swapRequests.js: the five route handlers
    (GET /, GET /received, GET /sent, POST /, PUT accept / decline / status).
  * src/unnamed/part_001 (skills controller): GET / (browse), GET /my-skills,
    GET /search, DELETE /:skillId.

Conventions: Mongo ObjectIds become Nat; a collection is a List; `find?` on a
list models `findById` / `findOne`; `findByIdAndUpdate` is an update of every
record carrying the id followed by a re-read (with {new : true} it returns the
updated document, or null when the id does not resolve). JS strings stay
Strings; optional body fields are Option String. Timestamps are a Nat passed
in by the caller of `create` (mongoose sets createdAt automatically).
-/

namespace SkillSwap

abbrev UserId := Nat
abbrev SkillId := Nat
abbrev ReqId := Nat

/-- User record, restricted to the summary fields the swap-request engine ever
reads or returns (populate is always with the projection
'username name location'); the password hash and skill arrays are never
touched by the embedded handlers. From src/unnamed/part_002 (user schema). -/
structure User where
  id : UserId
  username : String
  name : String
  location : String
deriving Repr, DecidableEq

/-- Skill record, from src/models/skill.js. `kind` embeds the schema field
named `type` (enum offered / wanted). -/
structure Skill where
  id : SkillId
  user : UserId
  skillName : String
  category : String
  skillLevel : String
  timeFrame : String
  description : String
  kind : String
  isActive : Bool
  createdAt : Nat
deriving Repr, DecidableEq

/-- SwapRequest record, from src/unnamed/part_002 (swapRequest schema).
`status` is kept as a String exactly as the routes read and write it. -/
structure SwapRequest where
  id : ReqId
  requester : UserId
  skillProvider : UserId
  skillRequested : SkillId
  skillOffered : SkillId
  status : String
  comments : Option String
  requestMessage : Option String
  responseMessage : Option String
  createdAt : Nat
deriving Repr, DecidableEq

/-- The fields of a SwapRequest that the spec calls immutable after creation
(everything except status and responseMessage). -/
structure ReqCore where
  id : ReqId
  requester : UserId
  skillProvider : UserId
  skillRequested : SkillId
  skillOffered : SkillId
  createdAt : Nat
deriving Repr, DecidableEq

def SwapRequest.core (r : SwapRequest) : ReqCore :=
  ⟨r.id, r.requester, r.skillProvider, r.skillRequested, r.skillOffered, r.createdAt⟩

/-- The persistent store: the three collections the embedded handlers touch,
plus the id that the next created SwapRequest will receive (Mongo generates a
fresh ObjectId; freshness is a hypothesis where a proof needs it). -/
structure Db where
  users : List User
  skills : List Skill
  requests : List SwapRequest
  nextId : ReqId
deriving Repr, DecidableEq

def findUser (db : Db) (uid : UserId) : Option User :=
  db.users.find? (fun u => u.id = uid)

def findSkill (db : Db) (sid : SkillId) : Option Skill :=
  db.skills.find? (fun s => s.id = sid)

def findRequest (db : Db) (rid : ReqId) : Option SwapRequest :=
  db.requests.find? (fun q => q.id = rid)

/-- The shape every swap-request route returns on success: the request with
requester / skillProvider populated as identity summaries and both skills
populated in full. A dangling reference populates to none (Mongo null). -/
structure PopulatedRequest where
  id : ReqId
  requester : Option User
  skillProvider : Option User
  skillRequested : Option Skill
  skillOffered : Option Skill
  status : String
  comments : Option String
  requestMessage : Option String
  responseMessage : Option String
  createdAt : Nat
deriving Repr, DecidableEq

/-- .populate('requester','username name location') .populate('skillProvider',…)
.populate('skillRequested') .populate('skillOffered') applied to one request. -/
def populateRequest (db : Db) (r : SwapRequest) : PopulatedRequest :=
  { id := r.id
    requester := findUser db r.requester
    skillProvider := findUser db r.skillProvider
    skillRequested := findSkill db r.skillRequested
    skillOffered := findSkill db r.skillOffered
    status := r.status
    comments := r.comments
    requestMessage := r.requestMessage
    responseMessage := r.responseMessage
    createdAt := r.createdAt }

/-- The response of a mutating swap-request route: res.json of a (possibly
null) populated request, res.json of a plain message object, or
res.status(code).json of an error body. The Nat is the HTTP status code. -/
inductive Resp where
  | okReq : Nat → Option PopulatedRequest → Resp
  | okMsg : Nat → String → Resp
  | err : Nat → String → Resp
deriving Repr, DecidableEq

/-- A response produced by a non-error res.json path. -/
def Resp.isOk : Resp → Bool
  | .okReq _ _ => true
  | .okMsg _ _ => true
  | .err _ _ => false

/-- The HTTP status code the response is sent with. -/
def Resp.statusCode : Resp → Nat
  | .okReq c _ => c
  | .okMsg c _ => c
  | .err c _ => c

/-! ### Sorting — .sort(\x7b createdAt: -1 \x7d), newest first -/

def newerFirst (a b : SwapRequest) : Prop := b.createdAt ≤ a.createdAt

instance : DecidableRel newerFirst := fun a b =>
  inferInstanceAs (Decidable (b.createdAt ≤ a.createdAt))

instance : IsTotal SwapRequest newerFirst :=
  ⟨fun a b => Nat.le_total b.createdAt a.createdAt⟩

instance : IsTrans SwapRequest newerFirst :=
  ⟨fun _ _ _ h1 h2 => Nat.le_trans h2 h1⟩

def sortReqsDesc (l : List SwapRequest) : List SwapRequest :=
  List.insertionSort newerFirst l

def skillNewerFirst (a b : Skill) : Prop := b.createdAt ≤ a.createdAt

instance : DecidableRel skillNewerFirst := fun a b =>
  inferInstanceAs (Decidable (b.createdAt ≤ a.createdAt))

def sortSkillsDesc (l : List Skill) : List Skill :=
  List.insertionSort skillNewerFirst l

/-! ### Read queries — src/controllers/swapRequests.js lines 14-72 -/

/-- GET / : SwapRequest.find(\x7b $or: [\x7brequester: me\x7d, \x7bskillProvider: me\x7d] \x7d),
populated, sorted createdAt descending. Returned alongside the (unchanged)
store to make the absence of mutation a stated fact. -/
def getAllSwapRequests (db : Db) (caller : UserId) : List PopulatedRequest × Db :=
  ((sortReqsDesc (db.requests.filter
      (fun r => r.requester = caller || r.skillProvider = caller))).map
    (populateRequest db), db)

/-- GET /received : SwapRequest.find(\x7b skillProvider: me \x7d). -/
def getReceivedRequests (db : Db) (caller : UserId) : List PopulatedRequest × Db :=
  ((sortReqsDesc (db.requests.filter
      (fun r => r.skillProvider = caller))).map (populateRequest db), db)

/-- GET /sent : SwapRequest.find(\x7b requester: me \x7d). -/
def getSentRequests (db : Db) (caller : UserId) : List PopulatedRequest × Db :=
  ((sortReqsDesc (db.requests.filter
      (fun r => r.requester = caller))).map (populateRequest db), db)

/-! ### POST / — create, src/controllers/swapRequests.js lines 75-120 -/

/-- POST / : resolve both skills (404 if either is missing), reject a self-swap
with 400, reject offering a skill the caller does not own with 403, otherwise
persist a new pending request whose skillProvider is skillRequested's owner
and return it populated (SwapRequest.create followed by findById + populate;
`now` is the createdAt timestamp mongoose would stamp). -/
def createSwapRequest (db : Db) (caller : UserId) (skillRequestedId skillOfferedId : SkillId)
    (comments requestMessage : Option String) (now : Nat) : Resp × Db :=
  match findSkill db skillRequestedId, findSkill db skillOfferedId with
  | some skillRequested, some skillOffered =>
    if skillRequested.user = caller then
      (.err 400 "Cannot create swap request with yourself.", db)
    else if skillOffered.user ≠ caller then
      (.err 403 "You can only offer skills you own.", db)
    else
      let r : SwapRequest :=
        { id := db.nextId
          requester := caller
          skillProvider := skillRequested.user
          skillRequested := skillRequestedId
          skillOffered := skillOfferedId
          status := "pending"
          comments := comments
          requestMessage := requestMessage
          responseMessage := none
          createdAt := now }
      let db2 : Db := { db with requests := db.requests ++ [r], nextId := db.nextId + 1 }
      (.okReq 201 ((findRequest db2 r.id).map (populateRequest db2)), db2)
  | _, _ => (.err 404 "One or both skills not found.", db)

/-! ### PUT accept / decline / status — src/controllers/swapRequests.js 124-256

Each of these handlers is a findById (the read), a chain of guards on the
document that read returned, and a findByIdAndUpdate (the write) that is not
conditioned on the status it updates. To let the store evolve between the read
and the write — the handlers await between the two calls — each handler is
stated over a pair of stores: dbRead, the store the findById snapshot came
from, and dbWrite, the store the findByIdAndUpdate hits. The route as executed
sequentially is the diagonal dbRead = dbWrite. -/

/-- findByIdAndUpdate(id, \x7b status, responseMessage \x7d, \x7b new: true \x7d):
unconditionally writes the two fields on every record carrying the id and
returns the updated document (or none when the id does not resolve). -/
def respondWrite (db : Db) (rid : ReqId) (newStatus : String) (msg : Option String) :
    Option SwapRequest × Db :=
  let upd : SwapRequest → SwapRequest := fun q =>
    if q.id = rid then { q with status := newStatus, responseMessage := msg } else q
  let db2 : Db := { db with requests := db.requests.map upd }
  (findRequest db2 rid, db2)

/-- findByIdAndUpdate(id, \x7b status \x7d, \x7b new: true \x7d) for the generic status
route: only the status field is written. -/
def statusWrite (db : Db) (rid : ReqId) (newStatus : String) :
    Option SwapRequest × Db :=
  let upd : SwapRequest → SwapRequest := fun q =>
    if q.id = rid then { q with status := newStatus } else q
  let db2 : Db := { db with requests := db.requests.map upd }
  (findRequest db2 rid, db2)

/-- PUT /:requestId/accept with an explicit read store / write store split. -/
def acceptRun (dbRead dbWrite : Db) (caller : UserId) (rid : ReqId)
    (responseMessage : Option String) : Resp × Db :=
  match findRequest dbRead rid with
  | none => (.err 404 "Swap request not found.", dbWrite)
  | some r =>
    if r.skillProvider ≠ caller then
      (.err 403 "You can only accept requests sent to you.", dbWrite)
    else if r.status ≠ "pending" then
      (.err 400 "This request has already been answered.", dbWrite)
    else
      let wr := respondWrite dbWrite rid "accepted" responseMessage
      (.okReq 200 (wr.1.map (populateRequest wr.2)), wr.2)

/-- PUT /:requestId/accept as the route executes it: read and write against
the same store. -/
def acceptRequest (db : Db) (caller : UserId) (rid : ReqId)
    (responseMessage : Option String) : Resp × Db :=
  acceptRun db db caller rid responseMessage

/-- PUT /:requestId/decline with an explicit read store / write store split. -/
def declineRun (dbRead dbWrite : Db) (caller : UserId) (rid : ReqId)
    (responseMessage : Option String) : Resp × Db :=
  match findRequest dbRead rid with
  | none => (.err 404 "Swap request not found.", dbWrite)
  | some r =>
    if r.skillProvider ≠ caller then
      (.err 403 "You can only decline requests sent to you.", dbWrite)
    else if r.status ≠ "pending" then
      (.err 400 "This request has already been answered.", dbWrite)
    else
      let wr := respondWrite dbWrite rid "declined" responseMessage
      (.okReq 200 (wr.1.map (populateRequest wr.2)), wr.2)

/-- PUT /:requestId/decline as the route executes it. -/
def declineRequest (db : Db) (caller : UserId) (rid : ReqId)
    (responseMessage : Option String) : Resp × Db :=
  declineRun db db caller rid responseMessage

/-- PUT /:requestId/status : 404 if unresolvable, 403 unless the caller is the
requester or the skillProvider, 400 on a status outside
\x7b in-progress, completed \x7d, 400 when moving to in-progress from a status
other than accepted, otherwise write the status unconditionally. -/
def updateStatus (db : Db) (caller : UserId) (rid : ReqId) (newStatus : String) : Resp × Db :=
  match findRequest db rid with
  | none => (.err 404 "Swap request not found.", db)
  | some r =>
    if r.requester ≠ caller ∧ r.skillProvider ≠ caller then
      (.err 403 "You can only update swaps you\x27re part of.", db)
    else if newStatus ≠ "in-progress" ∧ newStatus ≠ "completed" then
      (.err 400 "Invalid status. Use \x22in-progress\x22 or \x22completed\x22.", db)
    else if r.status ≠ "accepted" ∧ newStatus = "in-progress" then
      (.err 400 "Can\x27t start until both people have agreed to the swap.", db)
    else
      let wr := statusWrite db rid newStatus
      (.okReq 200 (wr.1.map (populateRequest wr.2)), wr.2)

/-! ### Skill catalog — src/unnamed/part_001 (skills controller)

Only the routes the claims touch are embedded: GET / (browse), GET /my-skills,
GET /search, DELETE /:skillId. -/

/-- Case-insensitive substring containment over character lists: the effect of
the Mongo clause \x7b $regex: pat, $options: 'i' \x7d for a pattern with no regex
metacharacters. -/
def subseqCI (pat : List Char) : List Char → Bool
  | [] => pat.isEmpty
  | c :: rest => pat.isPrefixOf (c :: rest) || subseqCI pat rest

def containsCI (hay pat : String) : Bool :=
  subseqCI pat.toLower.data hay.toLower.data

/-- Query-string parameters of the browse and search routes. `q` is the
free-text parameter (named `search` on GET /, `q` on GET /search); a JS
falsy (absent or empty) parameter is `none` here, since `if (param)` skips
the empty string exactly as it skips an absent one. -/
structure SkillQuery where
  q : Option String
  category : Option String
  skillLevel : Option String
  kind : Option String
  location : Option String
  timeFrame : Option String
deriving Repr, DecidableEq

/-- The Mongo query GET / builds: \x7b isActive: true \x7d plus one clause per
present parameter, the free-text one an $or over skillName and description. -/
def matchesBrowseQuery (query : SkillQuery) (s : Skill) : Bool :=
  s.isActive
    && (match query.q with
        | some pat => containsCI s.skillName pat || containsCI s.description pat
        | none => true)
    && (match query.category with | some c => s.category = c | none => true)
    && (match query.skillLevel with | some lv => s.skillLevel = lv | none => true)
    && (match query.kind with | some k => s.kind = k | none => true)

/-- The post-populate location filter shared by GET / and GET /search:
skill.user.location && skill.user.location.toLowerCase().includes(loc). A
skill whose populated user is missing cannot pass it. -/
def passesLocation (loc : Option String) (p : Skill × Option User) : Bool :=
  match loc with
  | none => true
  | some l =>
    match p.2 with
    | some u => u.location ≠ "" && containsCI u.location l
    | none => false

/-- GET / (browse): Skill.find(query).populate('user','username name location')
.sort(\x7b createdAt: -1 \x7d), then the in-memory location filter. -/
def getSkillsBrowse (db : Db) (query : SkillQuery) : List (Skill × Option User) × Db :=
  let skills := (sortSkillsDesc (db.skills.filter (matchesBrowseQuery query))).map
    (fun s => (s, findUser db s.user))
  (skills.filter (passesLocation query.location), db)

/-- GET /my-skills: Skill.find(\x7b user: me, isActive: true \x7d), newest first. -/
def getMySkills (db : Db) (caller : UserId) : List Skill × Db :=
  (sortSkillsDesc (db.skills.filter (fun s => s.user = caller && s.isActive)), db)

/-- The Mongo query GET /search builds: the browse clauses plus timeFrame. -/
def matchesSearchQuery (query : SkillQuery) (s : Skill) : Bool :=
  matchesBrowseQuery query s
    && (match query.timeFrame with | some tf => s.timeFrame = tf | none => true)

/-- The body GET /search responds with: matching skills split into offered and
wanted, plus their total count. -/
structure SearchResults where
  offered : List (Skill × Option User)
  wanted : List (Skill × Option User)
  total : Nat
deriving Repr, DecidableEq

/-- GET /search: Skill.find(query).populate('user',…).sort newest first, the
location filter, then the offered / wanted split. -/
def searchSkills (db : Db) (query : SkillQuery) : SearchResults × Db :=
  let skills := ((sortSkillsDesc (db.skills.filter (matchesSearchQuery query))).map
    (fun s => (s, findUser db s.user))).filter (passesLocation query.location)
  ({ offered := skills.filter (fun p => p.1.kind = "offered")
     wanted := skills.filter (fun p => p.1.kind = "wanted")
     total := skills.length }, db)

/-- The per-record effect of the soft delete: flip isActive off on the record
carrying the id, leave every other record alone. -/
def deactivate (skillId : SkillId) (t : Skill) : Skill :=
  if t.id = skillId then { t with isActive := false } else t

/-- DELETE /:skillId: 404 if the skill does not resolve, 403 unless the caller
owns it, otherwise findByIdAndUpdate(id, \x7b isActive: false \x7d) — the record
stays in the collection with isActive flipped off. -/
def deleteSkill (db : Db) (caller : UserId) (skillId : SkillId) : Resp × Db :=
  match findSkill db skillId with
  | none => (.err 404 "Skill not found.", db)
  | some s =>
    if s.user ≠ caller then
      (.err 403 "You can only delete your own skills.", db)
    else
      let db2 : Db := { db with skills := db.skills.map (deactivate skillId) }
      (.okMsg 200 "Skill deleted successfully.", db2)

/-! ### Concrete fixtures used by witnesses and counterexamples -/

def userA : User := { id := 1, username := "alice", name := "Alice", location := "Athens" }

def userB : User := { id := 2, username := "bob", name := "Bob", location := "Berlin" }

def skillGuitar : Skill :=
  { id := 10, user := 1, skillName := "Guitar", category := "Music",
    skillLevel := "Advanced", timeFrame := "", description := "",
    kind := "offered", isActive := true, createdAt := 1 }

def skillSpanish : Skill :=
  { id := 20, user := 2, skillName := "Spanish", category := "Languages",
    skillLevel := "Expert", timeFrame := "", description := "",
    kind := "offered", isActive := true, createdAt := 2 }

def reqPending : SwapRequest :=
  { id := 1, requester := 2, skillProvider := 1, skillRequested := 10,
    skillOffered := 20, status := "pending", comments := none,
    requestMessage := none, responseMessage := none, createdAt := 3 }

def dbNoReqs : Db :=
  { users := [userA, userB], skills := [skillGuitar, skillSpanish],
    requests := [], nextId := 1 }

def dbPending : Db := { dbNoReqs with requests := [reqPending], nextId := 2 }

def reqDeclined : SwapRequest := { reqPending with status := "declined" }

def dbDeclined : Db := { dbPending with requests := [reqDeclined] }

def reqAccepted : SwapRequest := { reqPending with status := "accepted" }

def dbAccepted : Db := { dbPending with requests := [reqAccepted] }

def skillGuitarOff : Skill := { skillGuitar with isActive := false }

def skillSpanishOff : Skill := { skillSpanish with isActive := false }

def dbInactive : Db :=
  { users := [userA, userB], skills := [skillGuitarOff, skillSpanishOff],
    requests := [], nextId := 1 }

/-! ### List lemmas shared by the claim proofs -/

theorem find?_map_comm {α : Type} (f : α → α) (p : α → Bool)
    (hf : ∀ a, p (f a) = p a) (l : List α) :
    (l.map f).find? p = (l.find? p).map f := by
  induction l with
  | nil => rfl
  | cons a t ih =>
    simp only [List.map_cons, List.find?, hf a]
    cases p a <;> simp [ih]

theorem find?_append_of_none {α : Type} (p : α → Bool) (l l2 : List α)
    (h : l.find? p = none) : (l ++ l2).find? p = l2.find? p := by
  induction l with
  | nil => rfl
  | cons a t ih =>
    simp only [List.find?] at h
    rw [List.cons_append]
    simp only [List.find?]
    cases hpa : p a
    · rw [hpa] at h
      exact ih h
    · rw [hpa] at h
      exact absurd h (by simp)

theorem map_core_of_preserving (g : SwapRequest → SwapRequest)
    (hg : ∀ q, (g q).core = q.core) (l : List SwapRequest) :
    (l.map g).map SwapRequest.core = l.map SwapRequest.core := by
  induction l with
  | nil => rfl
  | cons a t ih => simp [hg a, ih]

theorem respondWrite_found (db : Db) (rid : ReqId) (st : String) (m : Option String)
    (r : SwapRequest) (h : findRequest db rid = some r) :
    (respondWrite db rid st m).1 = some { r with status := st, responseMessage := m } ∧
    findRequest (respondWrite db rid st m).2 rid
      = some { r with status := st, responseMessage := m } := by
  have hid : r.id = rid := by
    have := List.find?_some h
    simpa using this
  have hmain :
      findRequest (respondWrite db rid st m).2 rid
        = some { r with status := st, responseMessage := m } := by
    unfold findRequest respondWrite
    rw [find?_map_comm _ _ (by intro a; by_cases ha : a.id = rid <;> simp [ha])]
    unfold findRequest at h
    rw [h]
    simp [hid]
  exact ⟨hmain, hmain⟩

theorem statusWrite_found (db : Db) (rid : ReqId) (st : String)
    (r : SwapRequest) (h : findRequest db rid = some r) :
    (statusWrite db rid st).1 = some { r with status := st } ∧
    findRequest (statusWrite db rid st).2 rid = some { r with status := st } := by
  have hid : r.id = rid := by
    have := List.find?_some h
    simpa using this
  have hmain : findRequest (statusWrite db rid st).2 rid = some { r with status := st } := by
    unfold findRequest statusWrite
    rw [find?_map_comm _ _ (by intro a; by_cases ha : a.id = rid <;> simp [ha])]
    unfold findRequest at h
    rw [h]
    simp [hid]
  exact ⟨hmain, hmain⟩

/-! ### Claim theorems -/

/-- C3: for a resolvable request and a caller who is the requester or the
skillProvider, the generic status route accepts newStatus = in-progress
exactly when the current status is accepted; its precondition rejection fires
exactly when newStatus is in-progress and the current status is not accepted;
and newStatus = completed passes with no status guard at all. -/
theorem advance_in_progress_iff_accepted (db : Db) (rid : ReqId) (r : SwapRequest)
    (caller : UserId) (h : findRequest db rid = some r)
    (hc : caller = r.requester ∨ caller = r.skillProvider) :
    (Resp.isOk (updateStatus db caller rid "in-progress").1 = true ↔ r.status = "accepted") ∧
    (∀ st : String,
      (updateStatus db caller rid st).1
          = .err 400 "Can\x27t start until both people have agreed to the swap."
        ↔ st = "in-progress" ∧ r.status ≠ "accepted") ∧
    Resp.isOk (updateStatus db caller rid "completed").1 = true := by
  have hno : ¬(r.requester ≠ caller ∧ r.skillProvider ≠ caller) := by
    rcases hc with h1 | h1 <;> simp [h1]
  refine ⟨?_, ?_, ?_⟩
  · unfold updateStatus
    rw [h]
    dsimp only
    rw [if_neg hno]
    by_cases hs : r.status = "accepted" <;> simp [hs, Resp.isOk]
  · intro st
    unfold updateStatus
    rw [h]
    dsimp only
    rw [if_neg hno]
    by_cases hval : st ≠ "in-progress" ∧ st ≠ "completed"
    · rw [if_pos hval]
      constructor
      · intro hcontra
        exact absurd (Resp.err.inj hcontra).2 (by decide)
      · rintro ⟨h1, _⟩
        exact absurd h1 hval.1
    · rw [if_neg hval]
      by_cases hguard : r.status ≠ "accepted" ∧ st = "in-progress"
      · rw [if_pos hguard]
        simp [hguard.1, hguard.2]
      · rw [if_neg hguard]
        constructor
        · intro hcontra
          exact absurd hcontra (by simp)
        · intro hst
          exact absurd ⟨hst.2, hst.1⟩ hguard
  · unfold updateStatus
    rw [h]
    dsimp only
    rw [if_neg hno]
    simp [Resp.isOk]

/-- C3 witness: on a concrete accepted request, the skillProvider moving it to
in-progress succeeds, the precondition error never fires for in-progress from
accepted, and completed passes. -/
theorem advance_in_progress_iff_accepted_witness :
    (Resp.isOk (updateStatus dbAccepted 1 1 "in-progress").1 = true
      ↔ reqAccepted.status = "accepted") ∧
    (∀ st : String,
      (updateStatus dbAccepted 1 1 st).1
          = .err 400 "Can\x27t start until both people have agreed to the swap."
        ↔ st = "in-progress" ∧ reqAccepted.status ≠ "accepted") ∧
    Resp.isOk (updateStatus dbAccepted 1 1 "completed").1 = true :=
  advance_in_progress_iff_accepted dbAccepted 1 reqAccepted 1 (by decide)
    (Or.inr (by decide))

/-- C2 counterexample: a declined request is not terminal — the requester
setting status = completed on a declined request succeeds and the stored
status becomes completed. -/
theorem declined_request_can_complete :
    Resp.isOk (updateStatus dbDeclined 1 1 "completed").1 = true ∧
    ((updateStatus dbDeclined 1 1 "completed").2.requests.find? (fun q => q.id = 1))
      = some { reqDeclined with status := "completed" } := by decide

/-- C2 amended: on a request whose status is declined or completed, accept and
decline always fail, the generic status route fails for in-progress and for
every status outside the valid set, but a participant setting
status = completed succeeds and stores completed (which changes the status of
a declined request). -/
theorem terminal_status_behavior (db : Db) (rid : ReqId) (r : SwapRequest)
    (h : findRequest db rid = some r)
    (ht : r.status = "declined" ∨ r.status = "completed") :
    (∀ caller m, Resp.isOk (acceptRequest db caller rid m).1 = false) ∧
    (∀ caller m, Resp.isOk (declineRequest db caller rid m).1 = false) ∧
    (∀ caller, Resp.isOk (updateStatus db caller rid "in-progress").1 = false) ∧
    (∀ caller st, st ≠ "in-progress" → st ≠ "completed" →
      Resp.isOk (updateStatus db caller rid st).1 = false) ∧
    (∀ caller, (caller = r.requester ∨ caller = r.skillProvider) →
      Resp.isOk (updateStatus db caller rid "completed").1 = true ∧
      findRequest (updateStatus db caller rid "completed").2 rid
        = some { r with status := "completed" }) := by
  have hnp : r.status ≠ "pending" := by rcases ht with h1 | h1 <;> simp [h1]
  have hna : r.status ≠ "accepted" := by rcases ht with h1 | h1 <;> simp [h1]
  refine ⟨?_, ?_, ?_, ?_, ?_⟩
  · intro caller m
    unfold acceptRequest acceptRun
    rw [h]
    dsimp only
    by_cases hc : r.skillProvider ≠ caller
    · rw [if_pos hc]; rfl
    · rw [if_neg hc, if_pos hnp]; rfl
  · intro caller m
    unfold declineRequest declineRun
    rw [h]
    dsimp only
    by_cases hc : r.skillProvider ≠ caller
    · rw [if_pos hc]; rfl
    · rw [if_neg hc, if_pos hnp]; rfl
  · intro caller
    unfold updateStatus
    rw [h]
    dsimp only
    by_cases hc : r.requester ≠ caller ∧ r.skillProvider ≠ caller
    · rw [if_pos hc]; rfl
    · rw [if_neg hc, if_neg (by simp), if_pos ⟨hna, rfl⟩]; rfl
  · intro caller st h1 h2
    unfold updateStatus
    rw [h]
    dsimp only
    by_cases hc : r.requester ≠ caller ∧ r.skillProvider ≠ caller
    · rw [if_pos hc]; rfl
    · rw [if_neg hc, if_pos ⟨h1, h2⟩]; rfl
  · intro caller hc
    have hno : ¬(r.requester ≠ caller ∧ r.skillProvider ≠ caller) := by
      rcases hc with h1 | h1 <;> simp [h1]
    unfold updateStatus
    rw [h]
    dsimp only
    rw [if_neg hno, if_neg (by simp), if_neg (by simp)]
    exact ⟨rfl, (statusWrite_found db rid "completed" r h).2⟩

/-- C2 amended witness: on a concrete completed request, accept, decline and
in-progress all fail, and the provider writing completed again succeeds
without changing the stored status. -/
theorem terminal_status_behavior_witness :
    (∀ caller m, Resp.isOk (acceptRequest dbDeclined caller 1 m).1 = false) ∧
    (∀ caller, Resp.isOk (updateStatus dbDeclined caller 1 "in-progress").1 = false) ∧
    findRequest (updateStatus dbDeclined 1 1 "completed").2 1
      = some { reqDeclined with status := "completed" } := by
  have hmain := terminal_status_behavior dbDeclined 1 reqDeclined (by decide)
    (Or.inl (by decide))
  exact ⟨hmain.1, hmain.2.2.1, (hmain.2.2.2.2 1 (Or.inr (by decide))).2⟩

/-- C5 counterexample: an accept on an already-accepted request by the
skillProvider is rejected with HTTP 400, not 409; and a non-provider caller on
the same non-pending request is rejected with 403 rather than the distinct
already-answered error. -/
theorem accept_conflict_is_400_not_409 :
    (acceptRequest dbAccepted 1 1 none).1
        = .err 400 "This request has already been answered." ∧
    (acceptRequest dbAccepted 1 1 none).1.statusCode ≠ 409 ∧
    (declineRequest dbAccepted 1 1 none).1
        = .err 400 "This request has already been answered." ∧
    (acceptRequest dbAccepted 2 1 none).1
        = .err 403 "You can only accept requests sent to you." := by decide

/-- C5 amended: an accept or decline on an existing request whose status is
not pending always fails and leaves the store unchanged; the skillProvider
gets the distinct already-answered error with HTTP 400, while any other caller
is rejected earlier with Forbidden 403. -/
theorem accept_decline_not_pending (db : Db) (rid : ReqId) (r : SwapRequest)
    (caller : UserId) (m : Option String)
    (h : findRequest db rid = some r) (hs : r.status ≠ "pending") :
    Resp.isOk (acceptRequest db caller rid m).1 = false ∧
    Resp.isOk (declineRequest db caller rid m).1 = false ∧
    (caller = r.skillProvider →
      (acceptRequest db caller rid m).1
          = .err 400 "This request has already been answered." ∧
      (declineRequest db caller rid m).1
          = .err 400 "This request has already been answered.") ∧
    (caller ≠ r.skillProvider →
      (acceptRequest db caller rid m).1
          = .err 403 "You can only accept requests sent to you." ∧
      (declineRequest db caller rid m).1
          = .err 403 "You can only decline requests sent to you.") ∧
    (acceptRequest db caller rid m).2 = db ∧
    (declineRequest db caller rid m).2 = db := by
  unfold acceptRequest declineRequest acceptRun declineRun
  rw [h]
  dsimp only
  by_cases hc : r.skillProvider ≠ caller
  · rw [if_pos hc, if_pos hc]
    refine ⟨rfl, rfl, ?_, fun _ => ⟨rfl, rfl⟩, rfl, rfl⟩
    intro hceq
    exact absurd hceq.symm hc
  · rw [if_neg hc, if_neg hc, if_pos hs, if_pos hs]
    refine ⟨rfl, rfl, fun _ => ⟨rfl, rfl⟩, ?_, rfl, rfl⟩
    intro hcne
    push_neg at hc
    exact absurd hc.symm hcne

/-- C5 amended witness: concrete instance of the amended behavior on an
already-accepted request. -/
theorem accept_decline_not_pending_witness :
    Resp.isOk (acceptRequest dbAccepted 1 1 none).1 = false ∧
    (acceptRequest dbAccepted 1 1 none).2 = dbAccepted :=
  have hmain := accept_decline_not_pending dbAccepted 1 reqAccepted 1 none
    (by decide) (by decide)
  ⟨hmain.1, hmain.2.2.2.2.1⟩

/-- C9: the accept and decline handlers read the request with one store call
and write it with an unconditional findByIdAndUpdate; with the read of a
second respond call interleaved before the write of the first, both calls pass
the pending guard and both return 200 — the second does not observe the
already-updated status. Call one is a fully sequential accept; call two is the
decline handler whose findById snapshot (dbPending) was taken before call
one's write landed. -/
theorem respond_race_both_succeed :
    Resp.isOk (acceptRequest dbPending 1 1 (some "yes")).1 = true ∧
    Resp.isOk (declineRun dbPending
      (acceptRequest dbPending 1 1 (some "yes")).2 1 1 (some "no")).1 = true ∧
    ((declineRun dbPending (acceptRequest dbPending 1 1 (some "yes")).2
        1 1 (some "no")).2.requests.find? (fun q => q.id = 1)).map
      SwapRequest.status = some "declined" := by decide

/-- C4: respond (accept or decline) succeeds exactly when the caller is the
skillProvider and the status is pending immediately prior; on success the
status becomes accepted / declined and the responseMessage is stored; a second
respond call on the same id by the provider then fails with the distinct
already-answered error. -/
theorem respond_semantics (db : Db) (rid : ReqId) (r : SwapRequest)
    (h : findRequest db rid = some r) :
    (∀ caller m, Resp.isOk (acceptRequest db caller rid m).1 = true
        ↔ caller = r.skillProvider ∧ r.status = "pending") ∧
    (∀ caller m, Resp.isOk (declineRequest db caller rid m).1 = true
        ↔ caller = r.skillProvider ∧ r.status = "pending") ∧
    (r.status = "pending" → ∀ m : Option String,
      findRequest (acceptRequest db r.skillProvider rid m).2 rid
          = some { r with status := "accepted", responseMessage := m } ∧
      findRequest (declineRequest db r.skillProvider rid m).2 rid
          = some { r with status := "declined", responseMessage := m } ∧
      (∀ m2 : Option String,
        (acceptRequest (acceptRequest db r.skillProvider rid m).2 r.skillProvider rid m2).1
            = .err 400 "This request has already been answered." ∧
        (declineRequest (acceptRequest db r.skillProvider rid m).2 r.skillProvider rid m2).1
            = .err 400 "This request has already been answered." ∧
        (acceptRequest (declineRequest db r.skillProvider rid m).2 r.skillProvider rid m2).1
            = .err 400 "This request has already been answered." ∧
        (declineRequest (declineRequest db r.skillProvider rid m).2 r.skillProvider rid m2).1
            = .err 400 "This request has already been answered.")) := by
  have hiffA : ∀ caller m, Resp.isOk (acceptRequest db caller rid m).1 = true
      ↔ caller = r.skillProvider ∧ r.status = "pending" := by
    intro caller m
    unfold acceptRequest acceptRun
    rw [h]
    dsimp only
    by_cases hc : r.skillProvider ≠ caller
    · rw [if_pos hc]
      simp only [Resp.isOk]
      constructor
      · intro hfalse
        exact absurd hfalse (by decide)
      · rintro ⟨hceq, -⟩
        exact absurd hceq.symm hc
    · rw [if_neg hc]
      push_neg at hc
      by_cases hs : r.status ≠ "pending"
      · rw [if_pos hs]
        simp only [Resp.isOk]
        constructor
        · intro hfalse
          exact absurd hfalse (by decide)
        · rintro ⟨-, hp⟩
          exact absurd hp hs
      · rw [if_neg hs]
        push_neg at hs
        simp only [Resp.isOk]
        exact iff_of_true (by simp [Resp.isOk]) ⟨hc.symm, hs⟩
  have hiffD : ∀ caller m, Resp.isOk (declineRequest db caller rid m).1 = true
      ↔ caller = r.skillProvider ∧ r.status = "pending" := by
    intro caller m
    unfold declineRequest declineRun
    rw [h]
    dsimp only
    by_cases hc : r.skillProvider ≠ caller
    · rw [if_pos hc]
      simp only [Resp.isOk]
      constructor
      · intro hfalse
        exact absurd hfalse (by decide)
      · rintro ⟨hceq, -⟩
        exact absurd hceq.symm hc
    · rw [if_neg hc]
      push_neg at hc
      by_cases hs : r.status ≠ "pending"
      · rw [if_pos hs]
        simp only [Resp.isOk]
        constructor
        · intro hfalse
          exact absurd hfalse (by decide)
        · rintro ⟨-, hp⟩
          exact absurd hp hs
      · rw [if_neg hs]
        push_neg at hs
        simp only [Resp.isOk]
        exact iff_of_true (by simp [Resp.isOk]) ⟨hc.symm, hs⟩
  refine ⟨hiffA, hiffD, ?_⟩
  intro hp m
  have hacc : findRequest (acceptRequest db r.skillProvider rid m).2 rid
      = some { r with status := "accepted", responseMessage := m } := by
    unfold acceptRequest acceptRun
    rw [h]
    dsimp only
    rw [if_neg (by simp), if_neg (by simp [hp])]
    exact (respondWrite_found db rid "accepted" m r h).2
  have hdec : findRequest (declineRequest db r.skillProvider rid m).2 rid
      = some { r with status := "declined", responseMessage := m } := by
    unfold declineRequest declineRun
    rw [h]
    dsimp only
    rw [if_neg (by simp), if_neg (by simp [hp])]
    exact (respondWrite_found db rid "declined" m r h).2
  have key : ∀ (db2 : Db) (r2 : SwapRequest), findRequest db2 rid = some r2 →
      r2.skillProvider = r.skillProvider → r2.status ≠ "pending" →
      ∀ m2, (acceptRequest db2 r.skillProvider rid m2).1
          = .err 400 "This request has already been answered." ∧
        (declineRequest db2 r.skillProvider rid m2).1
          = .err 400 "This request has already been answered." := by
    intro db2 r2 h2 hprov hst m2
    constructor
    · unfold acceptRequest acceptRun
      rw [h2]
      dsimp only
      rw [if_neg (by simp [hprov]), if_pos hst]
    · unfold declineRequest declineRun
      rw [h2]
      dsimp only
      rw [if_neg (by simp [hprov]), if_pos hst]
  refine ⟨hacc, hdec, fun m2 => ?_⟩
  have k1 := key _ _ hacc rfl (by simp) m2
  have k2 := key _ _ hdec rfl (by simp) m2
  exact ⟨k1.1, k1.2, k2.1, k2.2⟩

/-- C4 witness: on a concrete pending request, accept by the provider
succeeds, stores accepted with the response message, and a second accept is
rejected as already answered. -/
theorem respond_semantics_witness :
    (Resp.isOk (acceptRequest dbPending 1 1 (some "ok")).1 = true
      ↔ (1 : UserId) = reqPending.skillProvider ∧ reqPending.status = "pending") ∧
    findRequest (acceptRequest dbPending reqPending.skillProvider 1 (some "ok")).2 1
      = some { reqPending with status := "accepted", responseMessage := some "ok" } ∧
    (acceptRequest (acceptRequest dbPending reqPending.skillProvider 1 (some "ok")).2
        reqPending.skillProvider 1 none).1
      = .err 400 "This request has already been answered." :=
  have hmain := respond_semantics dbPending 1 reqPending (by decide)
  have hrest := hmain.2.2 (by decide) (some "ok")
  ⟨hmain.1 1 (some "ok"), hrest.1, (hrest.2.2 none).1⟩

/-- C10: create performs no isActive check: with both skills resolvable, the
caller not owning the requested skill and owning the offered one, creation
succeeds and appends a new pending request even though a skill involved is
soft-deleted (isActive = false). -/
theorem create_ignores_isActive (db : Db) (caller : UserId)
    (sreqId soffId : SkillId) (c rm : Option String) (now : Nat) (sreq soff : Skill)
    (hreq : findSkill db sreqId = some sreq) (hoff : findSkill db soffId = some soff)
    (hns : sreq.user ≠ caller) (hown : soff.user = caller)
    (hinactive : sreq.isActive = false ∨ soff.isActive = false) :
    Resp.isOk (createSwapRequest db caller sreqId soffId c rm now).1 = true ∧
    ∃ rNew : SwapRequest,
      (createSwapRequest db caller sreqId soffId c rm now).2.requests
          = db.requests ++ [rNew] ∧ rNew.status = "pending" := by
  unfold createSwapRequest
  rw [hreq, hoff]
  dsimp only
  rw [if_neg hns, if_neg (by simp [hown])]
  exact ⟨rfl, ⟨_, rfl, rfl⟩⟩

/-- C10 witness: in a store whose two skills are both soft-deleted, user 2
requesting user 1's inactive skill while offering their own inactive skill
still gets a new pending request. -/
theorem create_ignores_isActive_witness :
    Resp.isOk (createSwapRequest dbInactive 2 10 20 none none 7).1 = true ∧
    ∃ rNew : SwapRequest,
      (createSwapRequest dbInactive 2 10 20 none none 7).2.requests
          = dbInactive.requests ++ [rNew] ∧ rNew.status = "pending" :=
  create_ignores_isActive dbInactive 2 10 20 none none 7 skillGuitarOff skillSpanishOff
    (by decide) (by decide) (by decide) (by decide) (Or.inl (by decide))

/-- C1: when create succeeds it appends a request whose skillProvider is
exactly the owner of the resolved skillRequested (create takes no
skillProvider input at all), and accept, decline and the generic status update
preserve id, requester, skillProvider, skillRequested, skillOffered and
createdAt of every stored request and never touch the skills collection. -/
theorem provider_derived_and_immutable (db : Db) (caller : UserId)
    (sreqId soffId : SkillId) (c rm : Option String) (now : Nat) (sreq : Skill)
    (hreq : findSkill db sreqId = some sreq) :
    (Resp.isOk (createSwapRequest db caller sreqId soffId c rm now).1 = true →
      ∃ rNew : SwapRequest,
        (createSwapRequest db caller sreqId soffId c rm now).2.requests
            = db.requests ++ [rNew] ∧
        rNew.skillProvider = sreq.user ∧ rNew.skillRequested = sreqId ∧
        rNew.skillOffered = soffId ∧ rNew.requester = caller) ∧
    (∀ caller2 rid m,
      (acceptRequest db caller2 rid m).2.requests.map SwapRequest.core
          = db.requests.map SwapRequest.core ∧
      (acceptRequest db caller2 rid m).2.skills = db.skills) ∧
    (∀ caller2 rid m,
      (declineRequest db caller2 rid m).2.requests.map SwapRequest.core
          = db.requests.map SwapRequest.core ∧
      (declineRequest db caller2 rid m).2.skills = db.skills) ∧
    (∀ caller2 rid st,
      (updateStatus db caller2 rid st).2.requests.map SwapRequest.core
          = db.requests.map SwapRequest.core ∧
      (updateStatus db caller2 rid st).2.skills = db.skills) := by
  refine ⟨?_, ?_, ?_, ?_⟩
  · unfold createSwapRequest
    rw [hreq]
    cases hoff : findSkill db soffId with
    | none =>
      dsimp only
      intro habs
      simp [Resp.isOk] at habs
    | some soff =>
      dsimp only
      by_cases h1 : sreq.user = caller
      · rw [if_pos h1]
        intro habs
        simp [Resp.isOk] at habs
      · rw [if_neg h1]
        by_cases h2 : soff.user ≠ caller
        · rw [if_pos h2]
          intro habs
          simp [Resp.isOk] at habs
        · rw [if_neg h2]
          exact fun _ => ⟨_, rfl, rfl, rfl, rfl, rfl⟩
  · intro caller2 rid m
    unfold acceptRequest acceptRun
    cases hr : findRequest db rid with
    | none => exact ⟨rfl, rfl⟩
    | some r =>
      dsimp only
      by_cases h1 : r.skillProvider ≠ caller2
      · rw [if_pos h1]
        exact ⟨rfl, rfl⟩
      · rw [if_neg h1]
        by_cases h2 : r.status ≠ "pending"
        · rw [if_pos h2]
          exact ⟨rfl, rfl⟩
        · rw [if_neg h2]
          unfold respondWrite
          dsimp only
          refine ⟨map_core_of_preserving _ (fun q => ?_) _, rfl⟩
          by_cases hq : q.id = rid <;> simp [SwapRequest.core, hq]
  · intro caller2 rid m
    unfold declineRequest declineRun
    cases hr : findRequest db rid with
    | none => exact ⟨rfl, rfl⟩
    | some r =>
      dsimp only
      by_cases h1 : r.skillProvider ≠ caller2
      · rw [if_pos h1]
        exact ⟨rfl, rfl⟩
      · rw [if_neg h1]
        by_cases h2 : r.status ≠ "pending"
        · rw [if_pos h2]
          exact ⟨rfl, rfl⟩
        · rw [if_neg h2]
          unfold respondWrite
          dsimp only
          refine ⟨map_core_of_preserving _ (fun q => ?_) _, rfl⟩
          by_cases hq : q.id = rid <;> simp [SwapRequest.core, hq]
  · intro caller2 rid st
    unfold updateStatus
    cases hr : findRequest db rid with
    | none => exact ⟨rfl, rfl⟩
    | some r =>
      dsimp only
      by_cases h1 : r.requester ≠ caller2 ∧ r.skillProvider ≠ caller2
      · rw [if_pos h1]
        exact ⟨rfl, rfl⟩
      · rw [if_neg h1]
        by_cases h2 : st ≠ "in-progress" ∧ st ≠ "completed"
        · rw [if_pos h2]
          exact ⟨rfl, rfl⟩
        · rw [if_neg h2]
          by_cases h3 : r.status ≠ "accepted" ∧ st = "in-progress"
          · rw [if_pos h3]
            exact ⟨rfl, rfl⟩
          · rw [if_neg h3]
            unfold statusWrite
            dsimp only
            refine ⟨map_core_of_preserving _ (fun q => ?_) _, rfl⟩
            by_cases hq : q.id = rid <;> simp [SwapRequest.core, hq]

/-- C1 witness: user 2 creating a request for user 1's guitar skill gets a
request whose skillProvider is user 1 (the owner of the requested skill), and
an accept on the pending store preserves every immutable field. -/
theorem provider_derived_and_immutable_witness :
    (∃ rNew : SwapRequest,
      (createSwapRequest dbNoReqs 2 10 20 none none 5).2.requests
          = dbNoReqs.requests ++ [rNew] ∧
      rNew.skillProvider = skillGuitar.user ∧ rNew.skillRequested = 10 ∧
      rNew.skillOffered = 20 ∧ rNew.requester = 2) ∧
    (acceptRequest dbNoReqs 1 1 none).2.requests.map SwapRequest.core
        = dbNoReqs.requests.map SwapRequest.core :=
  have hmain := provider_derived_and_immutable dbNoReqs 2 10 20 none none 5 skillGuitar
    (by decide)
  ⟨hmain.1 (by decide), (hmain.2.1 1 1 none).1⟩

/-- C6: create validates in this order — 404 when either skill id fails to
resolve, then 400 on a self-swap (caller owns skillRequested), then 403 when
the caller does not own skillOffered; otherwise it appends a new pending
request whose skillProvider is skillRequested's owner and answers 201 with the
request populated: requester and skillProvider as identity summaries and both
skills attached in full. -/
theorem create_validation_order (db : Db) (caller : UserId)
    (sreqId soffId : SkillId) (c rm : Option String) (now : Nat) :
    (findSkill db sreqId = none ∨ findSkill db soffId = none →
      createSwapRequest db caller sreqId soffId c rm now
        = (.err 404 "One or both skills not found.", db)) ∧
    (∀ sreq soff, findSkill db sreqId = some sreq → findSkill db soffId = some soff →
      (sreq.user = caller →
        createSwapRequest db caller sreqId soffId c rm now
          = (.err 400 "Cannot create swap request with yourself.", db)) ∧
      (sreq.user ≠ caller → soff.user ≠ caller →
        createSwapRequest db caller sreqId soffId c rm now
          = (.err 403 "You can only offer skills you own.", db)) ∧
      (sreq.user ≠ caller → soff.user = caller → findRequest db db.nextId = none →
        ∃ rNew : SwapRequest,
          (createSwapRequest db caller sreqId soffId c rm now).2.requests
              = db.requests ++ [rNew] ∧
          rNew.status = "pending" ∧ rNew.requester = caller ∧
          rNew.skillProvider = sreq.user ∧ rNew.skillRequested = sreqId ∧
          rNew.skillOffered = soffId ∧ rNew.createdAt = now ∧
          (createSwapRequest db caller sreqId soffId c rm now).1
              = .okReq 201 (some
                  { id := rNew.id
                    requester := findUser db caller
                    skillProvider := findUser db sreq.user
                    skillRequested := some sreq
                    skillOffered := some soff
                    status := "pending"
                    comments := c
                    requestMessage := rm
                    responseMessage := none
                    createdAt := now }))) := by
  constructor
  · rintro (h0 | h0)
    · unfold createSwapRequest
      rw [h0]
    · unfold createSwapRequest
      rw [h0]
      cases findSkill db sreqId <;> rfl
  · intro sreq soff h1 h2
    unfold createSwapRequest
    rw [h1, h2]
    dsimp only
    refine ⟨?_, ?_, ?_⟩
    · intro hself
      rw [if_pos hself]
    · intro hns hno
      rw [if_neg hns, if_pos hno]
    · intro hns hok hfresh
      rw [if_neg hns, if_neg (by simp [hok])]
      dsimp only
      refine ⟨_, rfl, rfl, rfl, rfl, rfl, rfl, rfl, ?_⟩
      have hfind : findRequest
          { db with
            requests := db.requests ++
              [{ id := db.nextId, requester := caller, skillProvider := sreq.user,
                 skillRequested := sreqId, skillOffered := soffId,
                 status := "pending", comments := c, requestMessage := rm,
                 responseMessage := none, createdAt := now }],
            nextId := db.nextId + 1 } db.nextId
          = some { id := db.nextId, requester := caller, skillProvider := sreq.user,
                   skillRequested := sreqId, skillOffered := soffId,
                   status := "pending", comments := c, requestMessage := rm,
                   responseMessage := none, createdAt := now } := by
        unfold findRequest at hfresh ⊢
        dsimp only
        rw [find?_append_of_none _ _ _ hfresh]
        simp [List.find?]
      rw [hfind]
      simp only [Option.map_some']
      unfold populateRequest findUser findSkill
      unfold findSkill at h1 h2
      dsimp only
      rw [h1, h2]

/-- C6 witness: on the concrete two-user store, user 2 creating a request for
skill 10 offering skill 20 gets 201 with the fully populated request, and a
self-swap attempt by user 1 gets the 400 error. -/
theorem create_validation_order_witness :
    (createSwapRequest dbNoReqs 1 10 20 none none 5
        = (.err 400 "Cannot create swap request with yourself.", dbNoReqs)) ∧
    (∃ rNew : SwapRequest,
      (createSwapRequest dbNoReqs 2 10 20 none none 5).2.requests
          = dbNoReqs.requests ++ [rNew] ∧
      rNew.status = "pending" ∧ rNew.requester = 2 ∧
      rNew.skillProvider = skillGuitar.user ∧ rNew.skillRequested = 10 ∧
      rNew.skillOffered = 20 ∧ rNew.createdAt = 5 ∧
      (createSwapRequest dbNoReqs 2 10 20 none none 5).1
          = .okReq 201 (some
              { id := rNew.id
                requester := findUser dbNoReqs 2
                skillProvider := findUser dbNoReqs skillGuitar.user
                skillRequested := some skillGuitar
                skillOffered := some skillSpanish
                status := "pending"
                comments := none
                requestMessage := none
                responseMessage := none
                createdAt := 5 })) :=
  have h1 := (create_validation_order dbNoReqs 1 10 20 none none 5).2
    skillGuitar skillSpanish (by decide) (by decide)
  have h2 := (create_validation_order dbNoReqs 2 10 20 none none 5).2
    skillGuitar skillSpanish (by decide) (by decide)
  ⟨h1.1 (by decide), h2.2.2 (by decide) (by decide) (by decide)⟩

/-- C7: for every user, the requests GET /received returns and the requests
GET /sent returns are together, as a set, exactly the requests GET / returns;
each of the three lists is ordered newest-created-first; and none of the three
reads mutates the store. -/
theorem inbox_outbox_partition (db : Db) (u : UserId) :
    (∀ x : PopulatedRequest, x ∈ (getAllSwapRequests db u).1 ↔
      x ∈ (getReceivedRequests db u).1 ∨ x ∈ (getSentRequests db u).1) ∧
    List.Pairwise (fun a b : PopulatedRequest => b.createdAt ≤ a.createdAt)
      (getAllSwapRequests db u).1 ∧
    List.Pairwise (fun a b : PopulatedRequest => b.createdAt ≤ a.createdAt)
      (getReceivedRequests db u).1 ∧
    List.Pairwise (fun a b : PopulatedRequest => b.createdAt ≤ a.createdAt)
      (getSentRequests db u).1 ∧
    (getAllSwapRequests db u).2 = db ∧
    (getReceivedRequests db u).2 = db ∧
    (getSentRequests db u).2 = db := by
  refine ⟨?_, ?_, ?_, ?_, rfl, rfl, rfl⟩
  · intro x
    simp only [getAllSwapRequests, getReceivedRequests, getSentRequests, sortReqsDesc,
      List.mem_map, List.mem_insertionSort, List.mem_filter, Bool.or_eq_true,
      decide_eq_true_eq]
    constructor
    · rintro ⟨r, ⟨hr, hreq | hprov⟩, hx⟩
      · exact Or.inr ⟨r, ⟨hr, hreq⟩, hx⟩
      · exact Or.inl ⟨r, ⟨hr, hprov⟩, hx⟩
    · rintro (⟨r, ⟨hr, hprov⟩, hx⟩ | ⟨r, ⟨hr, hreq⟩, hx⟩)
      · exact ⟨r, ⟨hr, Or.inr hprov⟩, hx⟩
      · exact ⟨r, ⟨hr, Or.inl hreq⟩, hx⟩
  · simp only [getAllSwapRequests, sortReqsDesc]
    exact List.Pairwise.map _ (fun a b hab => hab)
      (List.sorted_insertionSort newerFirst _)
  · simp only [getReceivedRequests, sortReqsDesc]
    exact List.Pairwise.map _ (fun a b hab => hab)
      (List.sorted_insertionSort newerFirst _)
  · simp only [getSentRequests, sortReqsDesc]
    exact List.Pairwise.map _ (fun a b hab => hab)
      (List.sorted_insertionSort newerFirst _)

/-- C7 witness: concrete instance on the one-request store for user 1. -/
theorem inbox_outbox_partition_witness :
    (∀ x : PopulatedRequest, x ∈ (getAllSwapRequests dbPending 1).1 ↔
      x ∈ (getReceivedRequests dbPending 1).1 ∨ x ∈ (getSentRequests dbPending 1).1) ∧
    (getAllSwapRequests dbPending 1).2 = dbPending :=
  ⟨(inbox_outbox_partition dbPending 1).1,
   (inbox_outbox_partition dbPending 1).2.2.2.2.1⟩

theorem matchesBrowse_isActive (query : SkillQuery) (s : Skill)
    (h : matchesBrowseQuery query s = true) : s.isActive = true := by
  unfold matchesBrowseQuery at h
  simp only [Bool.and_eq_true] at h
  exact h.1.1.1.1

theorem matchesSearch_isActive (query : SkillQuery) (s : Skill)
    (h : matchesSearchQuery query s = true) : s.isActive = true := by
  unfold matchesSearchQuery at h
  simp only [Bool.and_eq_true] at h
  exact matchesBrowse_isActive query s h.1

theorem mem_catalog_isActive (db2 : Db) (matchesQ : Skill → Bool)
    (hmat : ∀ t, matchesQ t = true → t.isActive = true)
    (loc : Option String) (p : Skill × Option User)
    (hp : p ∈ ((sortSkillsDesc (db2.skills.filter matchesQ)).map
        (fun s => (s, findUser db2 s.user))).filter (passesLocation loc)) :
    p.1 ∈ db2.skills ∧ p.1.isActive = true := by
  have hp1 := List.mem_of_mem_filter hp
  rcases List.mem_map.mp hp1 with ⟨t, ht, rfl⟩
  have ht2 : t ∈ db2.skills.filter matchesQ := by
    simpa [sortSkillsDesc] using ht
  rcases List.mem_filter.mp ht2 with ⟨htmem, htmat⟩
  exact ⟨htmem, hmat t htmat⟩

/-- C8: soft delete keeps the record, only flipping isActive to false; the
skill then appears in no browse, my-skills or search result (all of which
filter on isActive : true), while any stored swap request that references it
still populates it in full, inactive flag included, and the requests
collection is untouched. -/
theorem soft_delete_semantics (db : Db) (caller : UserId) (sid : SkillId) (s : Skill)
    (h : findSkill db sid = some s) (hown : s.user = caller) :
    (deleteSkill db caller sid).1 = .okMsg 200 "Skill deleted successfully." ∧
    (deleteSkill db caller sid).2.skills.length = db.skills.length ∧
    findSkill (deleteSkill db caller sid).2 sid = some { s with isActive := false } ∧
    (∀ query p, p ∈ (getSkillsBrowse (deleteSkill db caller sid).2 query).1 →
      p.1.id ≠ sid) ∧
    (∀ u2 t, t ∈ (getMySkills (deleteSkill db caller sid).2 u2).1 → t.id ≠ sid) ∧
    (∀ query p, p ∈ (searchSkills (deleteSkill db caller sid).2 query).1.offered ∨
        p ∈ (searchSkills (deleteSkill db caller sid).2 query).1.wanted →
      p.1.id ≠ sid) ∧
    (∀ r, r ∈ (deleteSkill db caller sid).2.requests →
      (r.skillRequested = sid →
        (populateRequest (deleteSkill db caller sid).2 r).skillRequested
          = some { s with isActive := false }) ∧
      (r.skillOffered = sid →
        (populateRequest (deleteSkill db caller sid).2 r).skillOffered
          = some { s with isActive := false })) ∧
    (deleteSkill db caller sid).2.requests = db.requests := by
  have hid : s.id = sid := by
    have := List.find?_some h
    simpa using this
  have hred : deleteSkill db caller sid
      = (.okMsg 200 "Skill deleted successfully.",
         { db with skills := db.skills.map (deactivate sid) }) := by
    unfold deleteSkill
    rw [h]
    dsimp only
    rw [if_neg (by simp [hown])]
  rw [hred]
  have hfind2 : findSkill { db with skills := db.skills.map (deactivate sid) } sid
      = some { s with isActive := false } := by
    unfold findSkill at h ⊢
    dsimp only
    rw [find?_map_comm _ _
      (by intro a; unfold deactivate; by_cases ha : a.id = sid <;> simp [ha]), h]
    simp [deactivate, hid]
  have hinact : ∀ t : Skill, t ∈ db.skills.map (deactivate sid) →
      t.id = sid → t.isActive = false := by
    intro t ht hts
    rcases List.mem_map.mp ht with ⟨t0, ht0, rfl⟩
    unfold deactivate at hts ⊢
    by_cases h0 : t0.id = sid
    · simp [h0]
    · simp only [if_neg h0] at hts ⊢
      exact absurd hts h0
  refine ⟨rfl, by simp, hfind2, ?_, ?_, ?_, ?_, rfl⟩
  · intro query p hp heq
    unfold getSkillsBrowse at hp
    dsimp only at hp
    have hmem := mem_catalog_isActive _ _ (matchesBrowse_isActive query) _ _ hp
    rw [hinact _ hmem.1 heq] at hmem
    exact absurd hmem.2 (by decide)
  · intro u2 t ht heq
    unfold getMySkills at ht
    dsimp only at ht
    have ht2 := (by simpa [sortSkillsDesc] using ht :
      t ∈ (db.skills.map (deactivate sid)).filter
        (fun s => s.user = u2 && s.isActive))
    rcases List.mem_filter.mp ht2 with ⟨htmem, htcond⟩
    have hact : t.isActive = true := by
      simp only [Bool.and_eq_true] at htcond
      exact htcond.2
    rw [hinact _ htmem heq] at hact
    exact absurd hact (by decide)
  · intro query p hp heq
    unfold searchSkills at hp
    dsimp only at hp
    have hp2 : p ∈ ((sortSkillsDesc
        ((db.skills.map (deactivate sid)).filter
          (matchesSearchQuery query))).map
        (fun s => (s, findUser
          { db with skills := db.skills.map (deactivate sid) } s.user))).filter
        (passesLocation query.location) := by
      rcases hp with hp | hp <;> exact List.mem_of_mem_filter hp
    have hmem := mem_catalog_isActive _ _ (matchesSearch_isActive query) _ _ hp2
    rw [hinact _ hmem.1 heq] at hmem
    exact absurd hmem.2 (by decide)
  · intro r hr
    constructor
    · intro hrs
      show findSkill _ r.skillRequested = _
      rw [hrs]
      exact hfind2
    · intro hro
      show findSkill _ r.skillOffered = _
      rw [hro]
      exact hfind2

/-- C8 witness: user 1 soft-deleting skill 10 in the store with a pending
request that references it — the record stays with isActive false, browse with
the empty query no longer lists it, and the pending request still populates
it. -/
theorem soft_delete_semantics_witness :
    findSkill (deleteSkill dbPending 1 10).2 10 = some { skillGuitar with isActive := false } ∧
    (∀ p, p ∈ (getSkillsBrowse (deleteSkill dbPending 1 10).2
        ⟨none, none, none, none, none, none⟩).1 → p.1.id ≠ 10) ∧
    (populateRequest (deleteSkill dbPending 1 10).2 reqPending).skillRequested
      = some { skillGuitar with isActive := false } :=
  have hmain := soft_delete_semantics dbPending 1 10 skillGuitar (by decide) (by decide)
  ⟨hmain.2.2.1, fun p hp => hmain.2.2.2.1 ⟨none, none, none, none, none, none⟩ p hp,
   (hmain.2.2.2.2.2.2.1 reqPending (by decide)).1 (by decide)⟩

end SkillSwap
